import Mathlib

/-!
Shallow embedding of the NovaBot giveaway engine (`cogs/giveaways.py`) and
music session engine (`cogs/music.py`).  Pure data is translated directly;
the Mongo-backed store is modelled as a list of records with `find?` for
`find_one` and an update-first-match function for `update_one`; Discord
side effects (message sends, edits, DMs) are modelled as explicit event
traces; `random.sample` is modelled as selection without replacement driven
by an arbitrary seed function.  Times are naturals (seconds).
-/

namespace NovaBot

/-! ### Giveaway record (wire shape of the stored document) -/

structure Giveaway where
  id : Nat
  guildId : Nat
  channelId : Nat
  messageId : Nat
  hostId : Nat
  prize : String
  winnerCount : Nat
  startTime : Nat
  endTime : Nat
  entries : List Nat
  winners : List Nat
  status : String
  rerolled : Bool
  endedAt : Option Nat
  deriving DecidableEq, Repr

/-- `update_one`: apply `f` to the first record matching `p`, leave the rest. -/
def updateOne {α : Type} (p : α → Bool) (f : α → α) : List α → List α
  | [] => []
  | a :: as => if p a then f a :: as else a :: updateOne p f as

/-- Model of `random.sample(l, k)`: repeatedly remove the element at a
seed-chosen position among the remaining ones.  Any `seed` gives one
possible draw; theorems quantify over all seeds. -/
def randomSample (seed : Nat → Nat) : Nat → List Nat → List Nat
  | 0, _ => []
  | k + 1, l =>
    if h : 0 < l.length then
      let i := seed k % l.length
      l.get ⟨i, Nat.mod_lt _ h⟩ :: randomSample seed k (l.eraseIdx i)
    else []

/-! ### Duration parsing (`Giveaways.parse_duration`) -/

/-- Python whitespace stripped by `str.strip()` (ASCII fragment). -/
def isPySpace (c : Char) : Bool :=
  c = ' ' || c = '\t' || c = '\n' || c = '\x0d' || c = '\x0b' || c = '\x0c'

/-- `str.strip()`: drop leading and trailing whitespace. -/
def stripEnds (l : List Char) : List Char :=
  ((l.dropWhile isPySpace).reverse.dropWhile isPySpace).reverse

def isAsciiDigit (c : Char) : Bool := '0' ≤ c && c ≤ '9'

/-- The regex `^(\d+)([smhdw])$` over a character list: a non-empty run of
digits followed by exactly one unit character. -/
def matchDuration (l : List Char) : Option (List Char × Char) :=
  let digits := l.takeWhile isAsciiDigit
  let rest := l.dropWhile isAsciiDigit
  match rest with
  | [u] =>
    if digits ≠ [] && (u = 's' || u = 'm' || u = 'h' || u = 'd' || u = 'w') then
      some (digits, u)
    else none
  | _ => none

def digitsToNat (l : List Char) : Nat :=
  l.foldl (fun acc c => acc * 10 + (c.toNat - 48)) 0

def unitMultiplier (u : Char) : Nat :=
  if u = 's' then 1
  else if u = 'm' then 60
  else if u = 'h' then 3600
  else if u = 'd' then 86400
  else 604800

/-- `duration_str.lower().strip()` before matching. -/
def normalizeDuration (s : String) : List Char :=
  stripEnds (s.data.map Char.toLower)

/-- `Giveaways.parse_duration`: lower, strip, match `^(\d+)([smhdw])$`,
then multiply the amount by the unit multiplier. -/
def parse_duration (s : String) : Except String Nat :=
  match matchDuration (normalizeDuration s) with
  | none => .error "Invalid duration format! Use: 30s, 5m, 2h, 3d, 1w"
  | some (digits, u) => .ok (digitsToNat digits * unitMultiplier u)

/-- The claim's grammar `^\d+[smhdw]$` on the raw input string, with no
lowercasing or stripping. -/
def matchesGrammar (s : String) : Bool :=
  (matchDuration s.data).isSome

/-! ### Entry (`GiveawayView.enter_giveaway`) -/

inductive EnterResult where
  | ok
  | stateError (msg : String)
  deriving DecidableEq, Repr

/-- Predicate used by the handler's `find_one`: message id, guild id and
`status = "active"` must all match. -/
def activeMatch (mid gid : Nat) (g : Giveaway) : Bool :=
  g.messageId == mid && g.guildId == gid && g.status == "active"

/-- The enter-button handler.  `now` is `datetime.utcnow()`.  Translates:
`find_one(status active)`; reject if `now > end_time`; reject if already
entered; otherwise `$push` the user id onto `entries` (the update filters
on `message_id` only, as in the source). -/
def enter_giveaway (now mid gid uid : Nat) (store : List Giveaway) :
    EnterResult × List Giveaway :=
  match store.find? (activeMatch mid gid) with
  | none => (.stateError "This giveaway is no longer active!", store)
  | some g =>
    if g.endTime < now then
      (.stateError "This giveaway has already ended!", store)
    else if uid ∈ g.entries then
      (.stateError "You're already entered in this giveaway!", store)
    else
      (.ok, updateOne (fun x => x.messageId == mid)
              (fun x => { x with entries := x.entries ++ [uid] }) store)

/-! ### Conclusion (`Giveaways.end_giveaway`) -/

/-- External context for a conclusion run: whether the guild, the channel
and the original giveaway message can still be resolved. -/
structure ConcludeCtx where
  guildExists : Bool
  channelExists : Bool
  messageExists : Bool
  deriving DecidableEq, Repr

inductive GEvent where
  | winnersAssigned (w : List Nat)
  | dmSent (uid : Nat)
  | announcementEdit
  | statusSetEnded
  deriving DecidableEq, Repr

def idMatch (i : Nat) (g : Giveaway) : Bool := g.id == i

/-- The `$set {status: "ended", ended_at: now}` update document. -/
def markEnded (now : Nat) (g : Giveaway) : Giveaway :=
  { g with status := "ended", endedAt := some now }

/-- The `$set {winners: ws}` update document. -/
def setWinners (ws : List Nat) (g : Giveaway) : Giveaway :=
  { g with winners := ws }

/-- `Giveaways.end_giveaway` on the success path of each awaited call.
It receives the `giveaway` dict `snap` fetched earlier by its caller and
never re-reads the record from the store: entries, winner count and ids
all come from the snapshot.  Returns the updated store and the trace of
external effects in program order. -/
def end_giveaway (seed : Nat → Nat) (ctx : ConcludeCtx) (now : Nat)
    (snap : Giveaway) (store : List Giveaway) :
    List Giveaway × List GEvent :=
  if !ctx.guildExists then (store, [])
  else if !ctx.channelExists then (store, [])
  else if !ctx.messageExists then
    (updateOne (idMatch snap.id) (fun x => { x with status := "ended" }) store,
     [.statusSetEnded])
  else
    let entries := snap.entries
    let wc := min snap.winnerCount entries.length
    if wc = 0 then
      (updateOne (idMatch snap.id) (markEnded now) store,
       [.announcementEdit, .statusSetEnded])
    else
      let ws := randomSample seed wc entries
      let store1 := updateOne (idMatch snap.id) (setWinners ws) store
      let store2 := updateOne (idMatch snap.id) (markEnded now) store1
      (store2,
       .winnersAssigned ws :: (ws.map .dmSent ++ [.announcementEdit, .statusSetEnded]))

def isDraw : GEvent → Bool
  | .winnersAssigned _ => true
  | _ => false

def isEdit : GEvent → Bool
  | .announcementEdit => true
  | _ => false

/-- Number of winner draws (stored `winners` assignments) in a trace. -/
def drawCount (tr : List GEvent) : Nat := tr.countP isDraw

/-- Number of public ended-announcement edits in a trace. -/
def editCount (tr : List GEvent) : Nat := tr.countP isEdit

/-! ### Creation (`Giveaways.giveaway_start`) -/

inductive StartEvent where
  | errorResponse (msg : String)
  | ephemeralAck
  | publicMessageSent
  | recordInserted
  | successEdit
  deriving DecidableEq, Repr

/-- `Giveaways.giveaway_start` as the ordered trace of its external
effects: permission check, winner-count check, duration parsing and range
checks, bot send-permission check, then the ephemeral acknowledgement,
the public giveaway message, the store insert, and the success edit — in
exactly the source's order. -/
def giveaway_start (hasManageMessages : Bool) (duration : String)
    (winners : Int) (canSend : Bool) : List StartEvent :=
  if !hasManageMessages then
    [.errorResponse "You need Manage Messages permission to start giveaways!"]
  else if winners < 1 || winners > 20 then
    [.errorResponse "Winner count must be between 1 and 20!"]
  else
    match parse_duration duration with
    | .error e => [.errorResponse e]
    | .ok ds =>
      if ds < 60 then
        [.errorResponse "Giveaway duration must be at least 1 minute!"]
      else if ds > 2419200 then
        [.errorResponse "Giveaway duration cannot exceed 28 days!"]
      else if !canSend then
        [.errorResponse "I don't have permission to send messages in that channel!"]
      else
        [.ephemeralAck, .publicMessageSent, .recordInserted, .successEdit]

/-! ### Reroll (`Giveaways.giveaway_reroll`) -/

inductive RerollResult where
  | ok (newWinners : List Nat)
  | stateError (msg : String)
  | permissionError
  deriving DecidableEq, Repr

def endedMatch (mid gid : Nat) (g : Giveaway) : Bool :=
  g.messageId == mid && g.guildId == gid && g.status == "ended"

/-- The `$set {winners: nw, rerolled: true}` update document. -/
def applyReroll (nw : List Nat) (g : Giveaway) : Giveaway :=
  { g with winners := nw, rerolled := true }

/-- `Giveaways.giveaway_reroll`: permission check; `find_one` with
`status = "ended"`; error when `min(winner_count, |entries|) = 0`;
otherwise a fresh `random.sample` replaces `winners` and `rerolled` is
set, via an update filtered on `_id`. -/
def giveaway_reroll (seed : Nat → Nat) (hasManageMessages : Bool)
    (mid gid : Nat) (store : List Giveaway) : RerollResult × List Giveaway :=
  if !hasManageMessages then (.permissionError, store)
  else
    match store.find? (endedMatch mid gid) with
    | none => (.stateError "No ended giveaway found with that message ID!", store)
    | some g =>
      let wc := min g.winnerCount g.entries.length
      if wc = 0 then
        (.stateError "Cannot reroll - no entries in this giveaway!", store)
      else
        let nw := randomSample seed wc g.entries
        (.ok nw, updateOne (idMatch g.id) (applyReroll nw) store)

/-! ### Music session (`cogs/music.py`) -/

structure Song where
  title : String
  url : String
  requesterId : Nat
  duration : Nat
  deriving DecidableEq, Repr

/-- Per-guild `MusicPlayer` state.  `voiceConnected` models whether
`voice_client` is set; `skipVotes` models the `_skip_votes` set. -/
structure PlayerState where
  queue : List Song
  current : Option Song
  volume : ℚ
  loopMode : String
  skipVotes : Finset Nat
  voiceConnected : Bool
  deriving DecidableEq

/-- `MusicPlayer.__init__` field values. -/
def initPlayer : PlayerState :=
  { queue := [], current := none, volume := 1 / 2, loopMode := "off"
    skipVotes := ∅, voiceConnected := false }

/-- `MusicPlayer.play_next` on the success path of the stream resolution:
early return when the queue is empty and loop mode is not `"song"`; then
the three-way selection (`song` replays current, `queue` appends current
to the back and pops the front, otherwise pop the front); the selected
song becomes current and the skip-vote set is cleared. -/
def play_next (p : PlayerState) : PlayerState :=
  if p.queue = [] ∧ p.loopMode ≠ "song" then p
  else if p.loopMode = "song" ∧ p.current.isSome then
    { p with skipVotes := ∅ }
  else if p.loopMode = "queue" ∧ p.current.isSome then
    match p.current, p.queue with
    | some c, [] => { p with current := some c, queue := [], skipVotes := ∅ }
    | some c, a :: rest =>
      { p with current := some a, queue := rest ++ [c], skipVotes := ∅ }
    | none, _ => p
  else
    match p.queue with
    | [] => p
    | a :: rest => { p with current := some a, queue := rest, skipVotes := ∅ }

/-- The advance policy exactly as the claim words it: `song` replays the
current track; `queue` pushes the current track to the back then pops the
front (rotating to itself when the queue is empty); otherwise pop the
front if any; when no next track results the current track becomes
absent; the skip-vote set is cleared whenever a track is selected. -/
def advanceClaim (p : PlayerState) : PlayerState :=
  if p.loopMode = "song" ∧ p.current.isSome then
    { p with skipVotes := ∅ }
  else if p.loopMode = "queue" ∧ p.current.isSome then
    match p.current, p.queue with
    | some c, [] => { p with current := some c, queue := [], skipVotes := ∅ }
    | some c, a :: rest =>
      { p with current := some a, queue := rest ++ [c], skipVotes := ∅ }
    | none, _ => p
  else
    match p.queue with
    | [] => { p with current := none }
    | a :: rest => { p with current := some a, queue := rest, skipVotes := ∅ }

/-- The amended advance policy: identical to the claim's policy except
that when the queue is empty and loop mode is not `"song"` the player
returns unchanged — the current track is retained (never cleared) and in
`queue` mode nothing rotates and no votes are cleared. -/
def advanceAmended (p : PlayerState) : PlayerState :=
  if p.queue = [] ∧ p.loopMode ≠ "song" then p
  else advanceClaim p

/-- `MusicPlayer.disconnect`: release the voice connection, clear the
queue, clear the current track.  Loop mode, volume and skip votes are
untouched. -/
def disconnect (p : PlayerState) : PlayerState :=
  { p with voiceConnected := false, queue := [], current := none }

/-- `MusicPlayer.set_volume`: clamp into [0, 1] and store. -/
def set_volume (p : PlayerState) (v : ℚ) : PlayerState :=
  { p with volume := max 0 (min 1 v) }

/-! ### `Music` cog commands -/

inductive MusicError where
  | validationError (msg : String)
  | stateError (msg : String)
  deriving DecidableEq, Repr

/-- `Music.volume`: reject levels outside 0..100 before touching the
player; otherwise forward `level / 100.0` to `set_volume`. -/
def volumeCommand (p : PlayerState) (level : Int) :
    Option MusicError × PlayerState :=
  if level < 0 || level > 100 then
    (some (.validationError "Volume must be between 0 and 100!"), p)
  else
    (none, set_volume p ((level : ℚ) / 100))

inductive SkipOutcome where
  | errorNothingPlaying
  | skipped
  | voteRegistered (tally required : Nat)
  deriving DecidableEq, Repr

/-- `Music.skip`: error when not connected or nothing current; immediate
skip when the channel has exactly one human member or the caller can
manage channels; otherwise add the caller to the vote set and skip when
the distinct-vote tally reaches `humanMembers / 2 + 1`, else report the
tally. -/
def skipCommand (humanMembers : Nat) (hasManageChannels : Bool)
    (callerId : Nat) (p : PlayerState) : SkipOutcome × PlayerState :=
  if !p.voiceConnected || p.current = none then (.errorNothingPlaying, p)
  else if humanMembers == 1 || hasManageChannels then (.skipped, p)
  else
    let requiredVotes := humanMembers / 2 + 1
    let votes := insert callerId p.skipVotes
    if requiredVotes ≤ votes.card then
      (.skipped, { p with skipVotes := votes })
    else
      (.voteRegistered votes.card requiredVotes, { p with skipVotes := votes })

/-- `Music.players` keyed by guild id, with `Music.get_player`:
return the stored session when present, otherwise create and store a
fresh one. -/
def get_player (players : List (Nat × PlayerState)) (gid : Nat) :
    PlayerState × List (Nat × PlayerState) :=
  match players.find? (fun x => x.1 == gid) with
  | some x => (x.2, players)
  | none => (initPlayer, players ++ [(gid, initPlayer)])

/-- `Music.stop`: fetch the guild's player; error when no voice
connection; otherwise the player object is mutated by `disconnect`
in place, so the map keeps the same entry with the updated state. -/
def stopCommand (players : List (Nat × PlayerState)) (gid : Nat) :
    Option MusicError × List (Nat × PlayerState) :=
  let (p, players1) := get_player players gid
  if !p.voiceConnected then
    (some (.stateError "I'm not connected to a voice channel!"), players1)
  else
    (none, updateOne (fun x => x.1 == gid) (fun x => (x.1, disconnect x.2)) players1)

/-- `True` exactly when `parse_duration` accepts the string. -/
def parseSucceeds (s : String) : Bool :=
  match parse_duration s with
  | .ok _ => true
  | .error _ => false

/-! ### Concrete fixtures used by counterexamples and witnesses -/

def seed0 : Nat → Nat := fun _ => 0

def ctxAll : ConcludeCtx :=
  { guildExists := true, channelExists := true, messageExists := true }

def gwActive : Giveaway :=
  { id := 1, guildId := 7, channelId := 8, messageId := 9, hostId := 3
    prize := "Nitro", winnerCount := 1, startTime := 0, endTime := 100
    entries := [10, 20], winners := [], status := "active", rerolled := false
    endedAt := none }

def gwEnded : Giveaway := { gwActive with status := "ended" }

def exSong : Song := { title := "A", url := "u", requesterId := 4, duration := 180 }

def exPlayer : PlayerState :=
  { queue := [], current := some exSong, volume := 1 / 2, loopMode := "off"
    skipVotes := ∅, voiceConnected := true }

/-- A session with non-default loop mode, volume and one standing vote. -/
def exPlayerQ : PlayerState :=
  { exPlayer with loopMode := "queue", volume := 3 / 4, skipVotes := {50} }

/-! ### Helper lemmas -/

theorem find?_updateOne {α : Type} (p : α → Bool) (f : α → α) (l : List α)
    (hf : ∀ a, p a = true → p (f a) = true) :
    (updateOne p f l).find? p = (l.find? p).map f := by
  induction l with
  | nil => rfl
  | cons a as ih =>
    by_cases h : p a = true
    · rw [updateOne, if_pos h, List.find?_cons_of_pos _ (hf a h),
        List.find?_cons_of_pos _ h, Option.map_some']
    · rw [updateOne, if_neg h, List.find?_cons_of_neg _ h,
        List.find?_cons_of_neg _ h, ih]

theorem randomSample_length (seed : Nat → Nat) (k : Nat) :
    ∀ l : List Nat, k ≤ l.length → (randomSample seed k l).length = k := by
  induction k with
  | zero => intro l _; rfl
  | succ k ih =>
    intro l h
    have hpos : 0 < l.length := Nat.lt_of_lt_of_le (Nat.succ_pos k) h
    rw [randomSample, dif_pos hpos, List.length_cons, ih]
    rw [List.length_eraseIdx_of_lt (Nat.mod_lt _ hpos)]
    omega

theorem randomSample_subset (seed : Nat → Nat) (k : Nat) :
    ∀ l : List Nat, randomSample seed k l ⊆ l := by
  induction k with
  | zero => intro l x hx; cases hx
  | succ k ih =>
    intro l x hx
    by_cases hpos : 0 < l.length
    · rw [randomSample, dif_pos hpos] at hx
      rcases List.mem_cons.1 hx with h | h
      · exact h ▸ l.get_mem _ _
      · exact List.eraseIdx_subset _ _ (ih _ h)
    · rw [randomSample, dif_neg hpos] at hx
      cases hx

theorem getElem_not_mem_eraseIdx {l : List Nat} (hnd : l.Nodup)
    {i : Nat} (hi : i < l.length) : l[i] ∉ l.eraseIdx i := by
  intro hmem
  rcases List.mem_eraseIdx_iff_getElem.1 hmem with ⟨j, hj, hne, heq⟩
  exact hne ((hnd.getElem_inj_iff).1 heq)

theorem randomSample_nodup (seed : Nat → Nat) (k : Nat) :
    ∀ l : List Nat, l.Nodup → (randomSample seed k l).Nodup := by
  induction k with
  | zero => intro l _; exact List.nodup_nil
  | succ k ih =>
    intro l hnd
    by_cases hpos : 0 < l.length
    · rw [randomSample, dif_pos hpos]
      refine List.nodup_cons.2 ⟨?_, ih _ ((l.eraseIdx_sublist _).nodup hnd)⟩
      intro hmem
      exact getElem_not_mem_eraseIdx hnd (Nat.mod_lt _ hpos)
        (randomSample_subset seed k _ hmem)
    · rw [randomSample, dif_neg hpos]
      exact List.nodup_nil

theorem countP_isDraw_dm (ws : List Nat) :
    (ws.map GEvent.dmSent).countP isDraw = 0 := by
  induction ws with
  | nil => rfl
  | cons a as ih => simp [List.countP_cons, isDraw, ih]

theorem countP_isEdit_dm (ws : List Nat) :
    (ws.map GEvent.dmSent).countP isEdit = 0 := by
  induction ws with
  | nil => rfl
  | cons a as ih => simp [List.countP_cons, isEdit, ih]

/-! ### C7: duration parser -/

/-- C7 counterexample: the raw string `"30S"` does not match the grammar
`^\d+[smhdw]$`, yet `parse_duration` accepts it (the source lowercases and
strips the input before matching), so "every input string not matching the
grammar fails validation" is false. -/
theorem duration_grammar_cex :
    parse_duration "30S" = .ok 30 ∧ matchesGrammar "30S" = false := by
  constructor <;> rfl

/-- C7 (amended): the reference table holds (`"30s"→30`, `"5m"→300`,
`"2h"→7200`, `"3d"→259200`, `"1w"→604800`), and `parse_duration` succeeds
exactly when the lowercased, whitespace-stripped input matches
`^\d+[smhdw]$` — the raw string itself need not match the grammar. -/
theorem duration_table_and_grammar :
    parse_duration "30s" = .ok 30 ∧ parse_duration "5m" = .ok 300 ∧
    parse_duration "2h" = .ok 7200 ∧ parse_duration "3d" = .ok 259200 ∧
    parse_duration "1w" = .ok 604800 ∧
    ∀ s : String, parseSucceeds s = (matchDuration (normalizeDuration s)).isSome := by
  refine ⟨rfl, rfl, rfl, rfl, rfl, ?_⟩
  intro s
  unfold parseSucceeds parse_duration
  cases matchDuration (normalizeDuration s) with
  | none => rfl
  | some du => rfl

/-! ### C4: entry after the end time -/

/-- C4 counterexample: at `now = endTime` exactly (not strictly before the
end time), the enter handler accepts the entry and mutates `entries`,
because the source rejects only when `now > end_time`; so "entry is only
possible while current time is strictly less than end time" is false. -/
theorem enter_at_end_time_cex :
    gwActive.endTime = 100 ∧
    (enter_giveaway 100 9 7 30 [gwActive]).1 = .ok ∧
    (enter_giveaway 100 9 7 30 [gwActive]).2 =
      [{ gwActive with entries := [10, 20, 30] }] := by
  refine ⟨rfl, rfl, rfl⟩

/-- C4 (amended): entry strictly after the end time always fails with a
`StateError` and leaves the store unmodified, whether or not the sweep has
run; the authoritative comparison is `now > endTime`, so rejection starts
strictly after `endTime` (entry is still accepted at `now = endTime`). -/
theorem enter_after_end_fails (now mid gid uid : Nat) (store : List Giveaway)
    (h : ∀ g, store.find? (activeMatch mid gid) = some g → g.endTime < now) :
    (∃ msg, (enter_giveaway now mid gid uid store).1 = .stateError msg) ∧
    (enter_giveaway now mid gid uid store).2 = store := by
  cases hfind : store.find? (activeMatch mid gid) with
  | none =>
    unfold enter_giveaway
    rw [hfind]
    exact ⟨⟨_, rfl⟩, rfl⟩
  | some g =>
    unfold enter_giveaway
    rw [hfind]
    simp only [if_pos (h g hfind)]
    exact ⟨⟨_, rfl⟩, trivial⟩

/-- Witness for C4's amended theorem: one second past the end time the
enter button yields a `StateError` and the store is unchanged. -/
theorem enter_after_end_fails_witness :
    (∃ msg, (enter_giveaway 101 9 7 30 [gwActive]).1 = .stateError msg) ∧
    (enter_giveaway 101 9 7 30 [gwActive]).2 = [gwActive] :=
  enter_after_end_fails 101 9 7 30 [gwActive] (by
    intro g hg
    have h1 : List.find? (activeMatch 9 7) [gwActive] = some gwActive := rfl
    rw [h1, Option.some_inj] at hg
    rw [← hg]
    decide)

/-! ### C3: creation ordering of the two external writes -/

/-- C3 counterexample: on a fully valid invocation the public giveaway
message is sent at trace position 1 and the store insert happens at trace
position 2 — the store write does not precede the message post, so the
claimed ordering is false. -/
theorem creation_order_cex :
    giveaway_start true "1h" 1 true =
      [.ephemeralAck, .publicMessageSent, .recordInserted, .successEdit] ∧
    ¬ ((giveaway_start true "1h" 1 true).indexOf StartEvent.recordInserted <
        (giveaway_start true "1h" 1 true).indexOf StartEvent.publicMessageSent) := by
  constructor
  · rfl
  · decide

/-- C3 (amended): every invocation that passes validation produces exactly
one public message send and exactly one record insert, with the message
sent *before* the store write — so a record never exists without its
message, but the ordering cannot rule out an orphaned message if the
store write were to fail after the send. -/
theorem creation_sends_then_inserts (d : String) (w : Int) (ds : Nat)
    (hd : parse_duration d = .ok ds) (h60 : 60 ≤ ds) (h28 : ds ≤ 2419200)
    (hw1 : 1 ≤ w) (hw2 : w ≤ 20) :
    giveaway_start true d w true =
      [.ephemeralAck, .publicMessageSent, .recordInserted, .successEdit] ∧
    (giveaway_start true d w true).count StartEvent.publicMessageSent = 1 ∧
    (giveaway_start true d w true).count StartEvent.recordInserted = 1 ∧
    (giveaway_start true d w true).indexOf StartEvent.publicMessageSent <
      (giveaway_start true d w true).indexOf StartEvent.recordInserted := by
  have htr : giveaway_start true d w true =
      [.ephemeralAck, .publicMessageSent, .recordInserted, .successEdit] := by
    unfold giveaway_start
    rw [hd]
    simp [not_lt.2 hw1, not_lt.2 hw2, not_lt.2 h60, not_lt.2 h28]
  refine ⟨htr, ?_, ?_, ?_⟩ <;> rw [htr] <;> decide

/-- Witness for C3's amended theorem at `duration = "1h"`, one winner. -/
theorem creation_sends_then_inserts_witness :
    giveaway_start true "1h" 1 true =
      [.ephemeralAck, .publicMessageSent, .recordInserted, .successEdit] :=
  (creation_sends_then_inserts "1h" 1 3600 rfl (by decide) (by decide)
    (by decide) (by decide)).1

/-! ### C9: volume bounds -/

/-- C9: the external `volume` command rejects every level outside `[0,100]`
with a `ValidationError` and leaves the player untouched; in range it
forwards `level / 100` to `set_volume`; and `set_volume` always stores a
clamped fraction in `[0, 1]`. -/
theorem volume_policy (p : PlayerState) (level : Int) (v : ℚ) :
    ((level < 0 ∨ 100 < level) →
      volumeCommand p level =
        (some (.validationError "Volume must be between 0 and 100!"), p)) ∧
    (0 ≤ level → level ≤ 100 →
      volumeCommand p level = (none, set_volume p ((level : ℚ) / 100))) ∧
    0 ≤ (set_volume p v).volume ∧ (set_volume p v).volume ≤ 1 := by
  refine ⟨?_, ?_, ?_, ?_⟩
  · intro h
    unfold volumeCommand
    rcases h with h | h
    · simp [h]
    · simp [h]
  · intro h0 h100
    unfold volumeCommand
    simp [not_lt.2 h0, not_lt.2 h100]
  · exact le_max_left 0 _
  · exact max_le zero_le_one (min_le_left 1 v)

/-- Witness for C9: `setVolume(150)` is rejected with a `ValidationError`
and the player state is unchanged; and a clamped store stays in bounds. -/
theorem volume_policy_witness :
    volumeCommand exPlayer 150 =
      (some (.validationError "Volume must be between 0 and 100!"), exPlayer) ∧
    0 ≤ (set_volume exPlayer 2).volume ∧ (set_volume exPlayer 2).volume ≤ 1 :=
  ⟨(volume_policy exPlayer 150 2).1 (Or.inr (by decide)),
   (volume_policy exPlayer 150 2).2.2.1, (volume_policy exPlayer 150 2).2.2.2⟩

/-! ### C6: skip quorum -/

/-- C6: with a connected player and a current track, the skip command
skips immediately when the channel has exactly one human member or the
caller can manage channels; otherwise the caller's id joins the vote set
and the skip fires exactly when the distinct-vote tally reaches
`humanMembers / 2 + 1`, else the tally is reported and playback
continues. -/
theorem skip_quorum (hm : Nat) (manage : Bool) (caller : Nat) (p : PlayerState)
    (hconn : p.voiceConnected = true) (hcur : p.current ≠ none) :
    ((hm = 1 ∨ manage = true) → skipCommand hm manage caller p = (.skipped, p)) ∧
    (hm ≠ 1 → manage = false →
      (hm / 2 + 1 ≤ (insert caller p.skipVotes).card →
        skipCommand hm manage caller p =
          (.skipped, { p with skipVotes := insert caller p.skipVotes })) ∧
      ((insert caller p.skipVotes).card < hm / 2 + 1 →
        skipCommand hm manage caller p =
          (.voteRegistered (insert caller p.skipVotes).card (hm / 2 + 1),
           { p with skipVotes := insert caller p.skipVotes }))) := by
  constructor
  · rintro (h | h)
    · simp [skipCommand, hconn, hcur, h]
    · simp [skipCommand, hconn, hcur, h]
  · intro h1 h2
    constructor
    · intro hle
      simp [skipCommand, hconn, hcur, h1, h2, hle]
    · intro hlt
      simp [skipCommand, hconn, hcur, h1, h2, Nat.not_le.2 hlt]

/-- Witness for C6 at the spec's scenario: 5 human members, no management
rights, two prior distinct votes — the third distinct vote skips, while a
repeat vote by an existing voter only reports the 2/3 tally. -/
theorem skip_quorum_witness :
    skipCommand 5 false 52 { exPlayer with skipVotes := {50, 51} } =
      (.skipped, { exPlayer with skipVotes := insert 52 {50, 51} }) ∧
    skipCommand 5 false 51 { exPlayer with skipVotes := {50, 51} } =
      (.voteRegistered 2 3,
       { exPlayer with skipVotes := insert 51 {50, 51} }) := by
  constructor
  · exact ((skip_quorum 5 false 52 { exPlayer with skipVotes := {50, 51} }
      rfl (by simp [exPlayer])).2 (by decide) rfl).1 (by decide)
  · have h := ((skip_quorum 5 false 51 { exPlayer with skipVotes := {50, 51} }
      rfl (by simp [exPlayer])).2 (by decide) rfl).2 (by decide)
    simpa using h

/-! ### C10: stop frame property -/

/-- C10: stopping a connected session releases the voice connection,
clears the queue and the current track, but leaves loop mode, volume and
the skip-vote set untouched, and the guild keeps the same (updated)
session entry: a later `get_player` returns it without creating a fresh
one. -/
theorem stop_preserves_settings (players : List (Nat × PlayerState)) (gid : Nat)
    (p : PlayerState)
    (hfind : players.find? (fun x => x.1 == gid) = some (gid, p))
    (hconn : p.voiceConnected = true) :
    (stopCommand players gid).2.find? (fun x => x.1 == gid) =
      some (gid, disconnect p) ∧
    (get_player (stopCommand players gid).2 gid).1 = disconnect p ∧
    (get_player (stopCommand players gid).2 gid).2 = (stopCommand players gid).2 ∧
    (disconnect p).loopMode = p.loopMode ∧ (disconnect p).volume = p.volume ∧
    (disconnect p).skipVotes = p.skipVotes ∧ (disconnect p).queue = [] ∧
    (disconnect p).current = none ∧ (disconnect p).voiceConnected = false := by
  have hstop : (stopCommand players gid).2 =
      updateOne (fun x => x.1 == gid) (fun x => (x.1, disconnect x.2)) players := by
    unfold stopCommand get_player
    rw [hfind]
    simp [hconn]
  have hf2 : (updateOne (fun x => x.1 == gid)
      (fun x => (x.1, disconnect x.2)) players).find? (fun x => x.1 == gid) =
      some (gid, disconnect p) := by
    rw [find?_updateOne (fun x => x.1 == gid) (fun x => (x.1, disconnect x.2))
      players (fun a ha => ha), hfind]
    rfl
  refine ⟨by rw [hstop]; exact hf2, ?_, ?_, rfl, rfl, rfl, rfl, rfl, rfl⟩
  · unfold get_player
    rw [hstop, hf2]
  · unfold get_player
    rw [hstop, hf2]

/-- Witness for C10: a guild whose player has loop mode `"queue"`, volume
`3/4` and one standing skip vote keeps all three across a stop. -/
theorem stop_preserves_settings_witness :
    (stopCommand [(7, exPlayerQ)] 7).2.find? (fun x => x.1 == 7) =
      some (7, disconnect exPlayerQ) ∧
    (disconnect exPlayerQ).loopMode = "queue" :=
  ⟨(stop_preserves_settings [(7, exPlayerQ)] 7 exPlayerQ rfl rfl).1,
   (stop_preserves_settings [(7, exPlayerQ)] 7 exPlayerQ rfl rfl).2.2.2.1⟩

/-! ### C1: conclusion is not guarded by a status re-read -/

/-- C1 counterexample: with the stored record already `ended`, a conclude
invoked with the stale `active` snapshot still draws winners (there is no
re-read and no silent abort), and two racing invocations on the same
snapshot produce a winner draw and an announcement edit *each* — two in
total, not one. -/
theorem conclude_not_idempotent_cex :
    gwEnded.status = "ended" ∧
    drawCount (end_giveaway seed0 ctxAll 200 gwActive [gwEnded]).2 = 1 ∧
    editCount (end_giveaway seed0 ctxAll 200 gwActive [gwEnded]).2 = 1 ∧
    drawCount (end_giveaway seed0 ctxAll 200 gwActive
      (end_giveaway seed0 ctxAll 200 gwActive [gwEnded]).1).2 = 1 := by
  refine ⟨rfl, ?_, ?_, ?_⟩ <;> rfl

/-- C1 (amended): `end_giveaway` never re-reads the record: whenever guild,
channel and message resolve and `min(winnerCount, |entries|) ≥ 1` in the
snapshot it was handed, every invocation emits exactly one winners
assignment and one ended-announcement edit, independently of the stored
status — so two racing invocations that both fetched the record while
`active` draw winners twice; at-most-once conclusion relies solely on the
callers' `status = "active"` fetch filters. -/
theorem conclude_draws_each_invocation (seed : Nat → Nat) (ctx : ConcludeCtx)
    (now : Nat) (snap : Giveaway) (store : List Giveaway)
    (hg : ctx.guildExists = true) (hc : ctx.channelExists = true)
    (hmsg : ctx.messageExists = true)
    (hwc : 1 ≤ min snap.winnerCount snap.entries.length) :
    drawCount (end_giveaway seed ctx now snap store).2 = 1 ∧
    editCount (end_giveaway seed ctx now snap store).2 = 1 := by
  have h0 : ¬ (min snap.winnerCount snap.entries.length = 0) := by omega
  unfold end_giveaway
  rw [hg, hc, hmsg]
  simp only [Bool.not_true, Bool.false_eq_true, if_false, if_neg h0]
  constructor
  · simp [drawCount, List.countP_cons, List.countP_append, countP_isDraw_dm, isDraw]
  · simp [editCount, List.countP_cons, List.countP_append, countP_isEdit_dm, isEdit]

/-- Witness for C1's amended theorem: a one-winner, two-entry giveaway
draws exactly once per invocation. -/
theorem conclude_draws_each_invocation_witness :
    drawCount (end_giveaway seed0 ctxAll 200 gwActive [gwActive]).2 = 1 ∧
    editCount (end_giveaway seed0 ctxAll 200 gwActive [gwActive]).2 = 1 :=
  conclude_draws_each_invocation seed0 ctxAll 200 gwActive [gwActive]
    rfl rfl rfl (by decide)

/-! ### C5: the draw is a without-replacement sample -/

/-- C5: after a conclude on a snapshot with `winnerCount = k` and `n`
duplicate-free entries (message still present, stored winners initially
unset), the stored winners have size `min k n`, are a subset of the
entries, and contain no duplicates. -/
theorem conclude_winner_draw (seed : Nat → Nat) (ctx : ConcludeCtx) (now : Nat)
    (snap : Giveaway) (store : List Giveaway) (r : Giveaway)
    (hg : ctx.guildExists = true) (hc : ctx.channelExists = true)
    (hmsg : ctx.messageExists = true)
    (hfind : store.find? (idMatch snap.id) = some r) (hw0 : r.winners = [])
    (hnd : snap.entries.Nodup) :
    ∃ r2, (end_giveaway seed ctx now snap store).1.find? (idMatch snap.id) =
        some r2 ∧
      r2.winners.length = min snap.winnerCount snap.entries.length ∧
      r2.winners ⊆ snap.entries ∧ r2.winners.Nodup := by
  unfold end_giveaway
  rw [hg, hc, hmsg]
  simp only [Bool.not_true, Bool.false_eq_true, if_false]
  by_cases h0 : min snap.winnerCount snap.entries.length = 0
  · rw [if_pos h0]
    refine ⟨markEnded now r, ?_, ?_, ?_, ?_⟩
    · rw [find?_updateOne (idMatch snap.id) (markEnded now) store
        (fun a ha => ha), hfind]
      rfl
    · show r.winners.length = _
      rw [hw0, h0]
      rfl
    · show r.winners ⊆ _
      rw [hw0]
      exact List.nil_subset _
    · show r.winners.Nodup
      rw [hw0]
      exact List.nodup_nil
  · rw [if_neg h0]
    refine ⟨markEnded now (setWinners (randomSample seed
      (min snap.winnerCount snap.entries.length) snap.entries) r), ?_, ?_, ?_, ?_⟩
    · rw [find?_updateOne (idMatch snap.id) (markEnded now) _ (fun a ha => ha),
        find?_updateOne (idMatch snap.id) (setWinners (randomSample seed
          (min snap.winnerCount snap.entries.length) snap.entries)) store
          (fun a ha => ha), hfind]
      rfl
    · exact randomSample_length seed _ _ (Nat.min_le_right _ _)
    · exact randomSample_subset seed _ _
    · exact randomSample_nodup seed _ _ hnd

/-- Witness for C5: the fixture giveaway (one winner, entries `[10, 20]`)
gets exactly one stored winner drawn from its entries. -/
theorem conclude_winner_draw_witness :
    ∃ r2, (end_giveaway seed0 ctxAll 200 gwActive [gwActive]).1.find?
        (idMatch gwActive.id) = some r2 ∧
      r2.winners.length = min gwActive.winnerCount gwActive.entries.length ∧
      r2.winners ⊆ gwActive.entries ∧ r2.winners.Nodup :=
  conclude_winner_draw seed0 ctxAll 200 gwActive [gwActive] gwActive
    rfl rfl rfl rfl rfl (by decide)

/-! ### C8: reroll -/

/-- C8: reroll requires an `ended` giveaway with entries: with no matching
ended record, or with empty entries, it fails with a `StateError` and the
store is unchanged; otherwise it draws a fresh without-replacement sample
of size `min(winnerCount, |entries|)` from the current entries, replaces
the stored winners wholesale (marking `rerolled`), and leaves the record's
status untouched. -/
theorem reroll_policy (seed : Nat → Nat) (mid gid : Nat) (store : List Giveaway) :
    (store.find? (endedMatch mid gid) = none →
      giveaway_reroll seed true mid gid store =
        (.stateError "No ended giveaway found with that message ID!", store)) ∧
    (∀ g, store.find? (endedMatch mid gid) = some g → g.entries = [] →
      giveaway_reroll seed true mid gid store =
        (.stateError "Cannot reroll - no entries in this giveaway!", store)) ∧
    (∀ g, store.find? (endedMatch mid gid) = some g → g.entries ≠ [] →
      1 ≤ g.winnerCount → g.entries.Nodup →
      ∃ nw, (giveaway_reroll seed true mid gid store).1 = .ok nw ∧
        nw.length = min g.winnerCount g.entries.length ∧
        nw ⊆ g.entries ∧ nw.Nodup ∧
        ∀ r, store.find? (idMatch g.id) = some r →
          (giveaway_reroll seed true mid gid store).2.find? (idMatch g.id) =
            some (applyReroll nw r) ∧ (applyReroll nw r).status = r.status) := by
  refine ⟨?_, ?_, ?_⟩
  · intro h
    unfold giveaway_reroll
    rw [h]
    rfl
  · intro g hg he
    unfold giveaway_reroll
    rw [hg]
    have h0 : min g.winnerCount g.entries.length = 0 := by simp [he]
    simp [h0]
  · intro g hg hne hk hnd
    have hlen : 0 < g.entries.length := List.length_pos.2 hne
    have hmin : 1 ≤ min g.winnerCount g.entries.length := Nat.le_min.2 ⟨hk, hlen⟩
    have h0 : ¬ (min g.winnerCount g.entries.length = 0) := by omega
    unfold giveaway_reroll
    rw [hg]
    simp only [Bool.not_true, Bool.false_eq_true, if_false, if_neg h0]
    refine ⟨randomSample seed (min g.winnerCount g.entries.length) g.entries,
      rfl, randomSample_length seed _ _ (Nat.min_le_right _ _),
      randomSample_subset seed _ _, randomSample_nodup seed _ _ hnd, ?_⟩
    intro r hr
    constructor
    · rw [find?_updateOne (idMatch g.id) (applyReroll (randomSample seed
        (min g.winnerCount g.entries.length) g.entries)) store
        (fun a ha => ha), hr]
      rfl
    · rfl

/-- Witness for C8: rerolling the fixture ended giveaway draws one fresh
winner from its entries and leaves the status `ended`. -/
theorem reroll_policy_witness :
    ∃ nw, (giveaway_reroll seed0 true 9 7 [gwEnded]).1 = .ok nw ∧
      nw.length = min gwEnded.winnerCount gwEnded.entries.length ∧
      nw ⊆ gwEnded.entries ∧ nw.Nodup ∧
      ∀ r, List.find? (idMatch gwEnded.id) [gwEnded] = some r →
        (giveaway_reroll seed0 true 9 7 [gwEnded]).2.find? (idMatch gwEnded.id) =
          some (applyReroll nw r) ∧ (applyReroll nw r).status = r.status :=
  (reroll_policy seed0 9 7 [gwEnded]).2.2 gwEnded (by rfl) (by decide)
    (by decide) (by decide)

/-! ### C2: the advance policy -/

/-- C2 counterexample: with loop mode `off`, an empty queue and a current
track, the source's `play_next` returns early and keeps the finished
track as current, whereas the claimed policy makes the current track
absent when no next track results. -/
theorem advance_keeps_current_cex :
    exPlayer.queue = [] ∧ exPlayer.loopMode = "off" ∧
    exPlayer.current = some exSong ∧
    (play_next exPlayer).current = some exSong ∧
    (advanceClaim exPlayer).current = none := by
  refine ⟨rfl, rfl, rfl, by decide, by decide⟩

/-- C2 (amended): `play_next` implements the claimed selection policy
amended with the source's early return: when the queue is empty and loop
mode is not `song`, the state is returned unchanged — the current track
is kept rather than cleared, in `queue` mode nothing rotates, and no
votes are cleared; in every other case the claimed policy (including
skip-vote clearing) holds exactly. -/
theorem play_next_eq_advanceAmended (p : PlayerState) :
    play_next p = advanceAmended p := by
  obtain ⟨q, cur, vol, lm, votes, vc⟩ := p
  by_cases hl : lm = "song" <;> by_cases hq2 : lm = "queue" <;>
    cases cur <;> cases q <;>
    simp_all [play_next, advanceAmended, advanceClaim]

end NovaBot
